import Mathlib

/-!
Verification of the tweet-analysis pipeline (DataExplorer, DataProcessor,
AntisemitismReportFormatter) against its specification.

The pandas DataFrame is embedded as a list of rows over the two relevant
columns (`Text`, `Biased`), each cell holding a `Value`: a string, a float
(modelled as a rational), or a missing value (NaN/None).  Column presence is
tracked by two flags, since the source methods guard on
`col in df.columns`.  Python dicts are embedded as association lists with
insertion-order semantics (`insertD` replaces in place, appends when fresh).
-/

/-- A cell value of the table: a string, a float (modelled as `Rat`), or a
missing value (NaN / None). -/
inductive Value where
  | str (s : String)
  | num (q : Rat)
  | null
deriving DecidableEq, Repr

/-- One row of the table, restricted to the two columns the program uses:
the free-text field (`Text`) and the classification label (`Biased`). -/
structure Row where
  text : Value
  cat : Value
deriving DecidableEq, Repr

/-- The embedded DataFrame: the rows plus presence flags for the two columns
(the source methods guard on `column in df.columns`). -/
structure DF where
  hasText : Bool
  hasCat : Bool
  rows : List Row
deriving DecidableEq, Repr

/-- A Python dict with string keys, embedded as an association list in
insertion order. -/
abbrev Dict (V : Type) : Type := List (String × V)

/-- Whether the dict has an entry for key `k`. -/
def hasKeyD {V : Type} (d : Dict V) (k : String) : Bool :=
  d.any (fun p => p.1 = k)

/-- Python `d[k] = v`: replace the value in place if the key exists,
otherwise append the new entry (insertion order preserved). -/
def insertD {V : Type} (d : Dict V) (k : String) (v : V) : Dict V :=
  if hasKeyD d k then d.map (fun p => if p.1 = k then (k, v) else p)
  else d ++ [(k, v)]

/-- Python `d.get(k)`: the value at key `k`, if present. -/
def lookupD {V : Type} (d : Dict V) (k : String) : Option V :=
  (d.find? (fun p => p.1 = k)).map (fun p => p.2)

/-- The worker of `pySplit`: scan the characters, flushing the accumulated
token at each whitespace character. -/
def wsTokens : List Char → List Char → List String
  | [], acc => if acc.isEmpty then [] else [String.mk acc.reverse]
  | c :: cs, acc =>
    if c.isWhitespace then
      (if acc.isEmpty then [] else [String.mk acc.reverse]) ++ wsTokens cs []
    else wsTokens cs (c :: acc)

/-- Python `str.split()` with no argument: split on runs of whitespace,
discarding empty pieces. -/
def pySplit (s : String) : List String :=
  wsTokens s.toList []

/-- A word character in the sense of the regex `\w` (ASCII reading):
alphanumeric or underscore. -/
def isWordChar (c : Char) : Bool :=
  c.isAlphanum || c = '_'

/-- The substitution `re.sub(r'[^\w\s]', '', s)`: keep only word characters
and whitespace. -/
def stripPunct (s : String) : String :=
  String.mk (s.toList.filter (fun c => isWordChar c || c.isWhitespace))

/-- CategoryKey normalization, as performed in every aggregation of
`data_explorer.py`: missing → `"unclassified"`, integral float → the
stringified integer, anything else → its string form. -/
def categoryKey : Value → String
  | Value.null => "unclassified"
  | Value.num q => if q.den = 1 then toString q.num else toString q
  | Value.str s => s

/-- Count-descending order on `(value, count)` pairs, used to model the
sort performed by `value_counts`. -/
def cntGE {α : Type} (a b : α × Nat) : Prop := b.2 ≤ a.2

instance {α : Type} : DecidableRel (@cntGE α) := fun a b => Nat.decLe b.2 a.2

instance {α : Type} : IsTotal (α × Nat) (@cntGE α) := ⟨fun a b => Nat.le_total b.2 a.2⟩

instance {α : Type} : IsTrans (α × Nat) (@cntGE α) := ⟨fun _ _ _ h1 h2 => le_trans h2 h1⟩

/-- Pandas `Series.value_counts(dropna=False)`: one `(value, count)` pair per
distinct value, sorted by count descending. -/
def value_counts (col : List Value) : List (Value × Nat) :=
  (col.dedup.map (fun v => (v, col.count v))).insertionSort cntGE

/-- The key-normalising loop of `get_count_by_category`: fold the
`(value, count)` pairs into a dict under CategoryKey. -/
def buildCatCounts (pairs : List (Value × Nat)) : Dict Nat :=
  pairs.foldl (fun d p => insertD d (categoryKey p.1) p.2) []

/-- `DataExplorer.get_count_by_category`: value counts of the category column
(missing labels under `"unclassified"`), plus a `total` entry set to the row
count; returns the empty dict when the column is absent. -/
def get_count_by_category (df : DF) : Dict Nat :=
  if df.hasCat then
    insertD (buildCatCounts (value_counts (df.rows.map Row.cat)))
      "total" df.rows.length
  else []

-- Basic dict lemmas ---------------------------------------------------------

theorem lookupD_append_fresh {V : Type} (k : String) (v : V) :
    ∀ d : Dict V, hasKeyD d k = false → lookupD (d ++ [(k, v)]) k = some v := by
  intro d
  induction d with
  | nil => intro _; simp [lookupD, List.find?]
  | cons p d ih =>
    intro h
    simp only [hasKeyD, List.any_cons, Bool.or_eq_false_iff,
      decide_eq_false_iff_not] at h
    rw [List.cons_append, lookupD, List.find?_cons_of_neg _ (by simp [h.1])]
    exact ih h.2

theorem lookupD_replace {V : Type} (k : String) (v : V) :
    ∀ d : Dict V, hasKeyD d k = true →
      lookupD (d.map (fun p => if p.1 = k then (k, v) else p)) k = some v := by
  intro d
  induction d with
  | nil => intro h; simp [hasKeyD] at h
  | cons p d ih =>
    intro h
    by_cases hp : p.1 = k
    · simp [lookupD, List.find?, hp]
    · simp only [hasKeyD, List.any_cons, Bool.or_eq_true,
        decide_eq_true_eq] at h
      have h' : hasKeyD d k = true := by
        rcases h with h | h
        · exact absurd h hp
        · exact h
      simp only [List.map_cons, if_neg hp]
      rw [lookupD, List.find?_cons_of_neg _ (by simp [hp])]
      exact ih h'

theorem lookupD_insertD_self {V : Type} (d : Dict V) (k : String) (v : V) :
    lookupD (insertD d k v) k = some v := by
  unfold insertD
  by_cases h : hasKeyD d k
  · rw [if_pos h]; exact lookupD_replace k v d h
  · rw [if_neg h]
    exact lookupD_append_fresh k v d (Bool.not_eq_true _ ▸ h)

theorem insertD_fresh {V : Type} (d : Dict V) (k : String) (v : V)
    (h : hasKeyD d k = false) : insertD d k v = d ++ [(k, v)] := by
  unfold insertD
  simp [h]

theorem hasKeyD_append {V : Type} (d₁ d₂ : Dict V) (k : String) :
    hasKeyD (d₁ ++ d₂) k = (hasKeyD d₁ k || hasKeyD d₂ k) := by
  simp [hasKeyD]

/-- Folding `insertD` over pairs whose keys are pairwise distinct and absent
from the accumulator just appends them. -/
theorem foldl_insertD_fresh {V : Type} :
    ∀ (ps : List (String × V)) (d : Dict V),
      (ps.map Prod.fst).Nodup →
      (∀ k ∈ ps.map Prod.fst, hasKeyD d k = false) →
      ps.foldl (fun d p => insertD d p.1 p.2) d = d ++ ps := by
  intro ps
  induction ps with
  | nil => intro d _ _; simp
  | cons p ps ih =>
    intro d hnd hfresh
    simp only [List.map_cons, List.nodup_cons] at hnd
    have hp : hasKeyD d p.1 = false := hfresh p.1 (by simp)
    simp only [List.foldl_cons]
    rw [show insertD d p.1 p.2 = d ++ [(p.1, p.2)] from insertD_fresh d p.1 p.2 hp]
    rw [ih (d ++ [(p.1, p.2)]) hnd.2]
    · simp
    · intro k hk
      rw [hasKeyD_append]
      have hk1 : hasKeyD d k = false := hfresh k (by simp [hk])
      have hk2 : hasKeyD [(p.1, p.2)] k = false := by
        simp only [hasKeyD, List.any_cons, List.any_nil, Bool.or_false,
          decide_eq_false_iff_not]
        intro he
        exact hnd.1 (by rw [he]; exact hk)
      simp [hk1, hk2]

theorem value_counts_perm (col : List Value) :
    (value_counts col).Perm (col.dedup.map (fun v => (v, col.count v))) :=
  List.perm_insertionSort cntGE _

theorem value_counts_sum (col : List Value) :
    ((value_counts col).map (fun p => p.2)).sum = col.length := by
  rw [((value_counts_perm col).map (fun p : Value × Nat => p.2)).sum_eq,
    List.map_map]
  simpa using List.sum_map_count_dedup_eq_length col

theorem buildCatCounts_of_nodup (pairs : List (Value × Nat))
    (hnd : (pairs.map (fun p => categoryKey p.1)).Nodup) :
    buildCatCounts pairs = pairs.map (fun p => (categoryKey p.1, p.2)) := by
  unfold buildCatCounts
  have hfm := List.foldl_map (fun p : Value × Nat => (categoryKey p.1, p.2))
    (fun (d : Dict Nat) (p : String × Nat) => insertD d p.1 p.2) pairs []
  rw [← hfm]
  apply foldl_insertD_fresh
  · simpa [List.map_map, Function.comp_def] using hnd
  · intro k _
    rfl

/-- Claim C1 counterexample: on a one-row table whose category label is the
string `"total"`, the `total` entry overwrites the category bucket, so the
non-`total` bucket values sum to 0 while the table has 1 row. -/
theorem count_by_category_total_label_collision :
    (((get_count_by_category (DF.mk true true [Row.mk Value.null (Value.str "total")])).filter
        (fun p => p.1 ≠ "total")).map (fun p => p.2)).sum = 0 ∧
    (DF.mk true true [Row.mk Value.null (Value.str "total")]).rows.length = 1 := by
  constructor
  · decide
  · decide

/-- Claim C1 (amended): when the table has the category column and the
normalized keys of its distinct category values are pairwise distinct and
none of them is `"total"`, `get_count_by_category` returns a dict whose
`total` entry equals the row count and whose non-`total` bucket values sum
to the row count. -/
theorem count_by_category_total_and_bucket_sum (df : DF)
    (hc : df.hasCat = true)
    (hnd : ((value_counts (df.rows.map Row.cat)).map (fun p => categoryKey p.1)).Nodup)
    (ht : "total" ∉ (value_counts (df.rows.map Row.cat)).map (fun p => categoryKey p.1)) :
    lookupD (get_count_by_category df) "total" = some df.rows.length ∧
    (((get_count_by_category df).filter (fun p => p.1 ≠ "total")).map
      (fun p => p.2)).sum = df.rows.length := by
  unfold get_count_by_category
  rw [if_pos hc]
  refine ⟨lookupD_insertD_self _ _ _, ?_⟩
  set pairs := value_counts (df.rows.map Row.cat) with hpairs
  rw [buildCatCounts_of_nodup pairs hnd]
  have hfresh : hasKeyD (pairs.map (fun p => (categoryKey p.1, p.2))) "total" = false := by
    simp only [hasKeyD, List.any_eq_false, decide_eq_false_iff_not]
    intro q hq
    obtain ⟨p, hp, rfl⟩ := List.mem_map.mp hq
    intro hcontra
    exact ht (List.mem_map.mpr ⟨p, hp, of_decide_eq_true hcontra⟩)
  rw [insertD_fresh _ _ _ hfresh, List.filter_append]
  have h1 : (pairs.map (fun p => (categoryKey p.1, p.2))).filter
      (fun p => p.1 ≠ "total") = pairs.map (fun p => (categoryKey p.1, p.2)) := by
    apply List.filter_eq_self.mpr
    intro a ha
    obtain ⟨p, hp, rfl⟩ := List.mem_map.mp ha
    simp only [ne_eq, decide_eq_true_eq]
    intro hcontra
    exact ht (List.mem_map.mpr ⟨p, hp, hcontra⟩)
  have h2 : ([((("total" : String), df.rows.length))] :
      List (String × Nat)).filter (fun p => p.1 ≠ "total") = [] := by
    simp
  rw [h1, h2, List.append_nil, List.map_map]
  have : ((fun p : String × Nat => p.2) ∘ fun p : Value × Nat => (categoryKey p.1, p.2))
      = fun p : Value × Nat => p.2 := rfl
  rw [this, value_counts_sum, List.length_map]

/-- Claim C1 witness: the amended theorem applied to a concrete three-row
table with labels `"1"`, `0.0` and missing. -/
theorem count_by_category_total_and_bucket_sum_witness :
    lookupD (get_count_by_category (DF.mk true true
      [Row.mk Value.null (Value.str "1"), Row.mk Value.null (Value.num 0),
       Row.mk Value.null Value.null])) "total" = some (DF.mk true true
      [Row.mk Value.null (Value.str "1"), Row.mk Value.null (Value.num 0),
       Row.mk Value.null Value.null]).rows.length ∧
    (((get_count_by_category (DF.mk true true
      [Row.mk Value.null (Value.str "1"), Row.mk Value.null (Value.num 0),
       Row.mk Value.null Value.null])).filter (fun p => p.1 ≠ "total")).map
      (fun p => p.2)).sum = (DF.mk true true
      [Row.mk Value.null (Value.str "1"), Row.mk Value.null (Value.num 0),
       Row.mk Value.null Value.null]).rows.length :=
  count_by_category_total_and_bucket_sum _ rfl (by decide) (by decide)

-- calculate_average_word_count ----------------------------------------------

/-- Boolean order on cell values, used to model the key sort that pandas
`groupby(sort=True)` performs: missing first, then numbers, then strings. -/
def vleB : Value → Value → Bool
  | Value.null, _ => true
  | Value.num _, Value.null => false
  | Value.num p, Value.num q => decide (p ≤ q)
  | Value.num _, Value.str _ => true
  | Value.str _, Value.null => false
  | Value.str _, Value.num _ => false
  | Value.str s, Value.str t => decide (s ≤ t)

/-- The order `vleB` as a relation. -/
def vleP (a b : Value) : Prop := vleB a b = true

instance : DecidableRel vleP := fun a b => instDecidableEqBool (vleB a b) true

instance : IsTotal Value vleP := by
  constructor
  intro a b
  cases a <;> cases b <;> simp [vleP, vleB] <;> exact le_total _ _

instance : IsTrans Value vleP := by
  constructor
  intro a b c h1 h2
  cases a <;> cases b <;> cases c <;>
    simp only [vleP, vleB, decide_eq_true_eq] at h1 h2 ⊢ <;>
    first
    | trivial
    | exact h1
    | exact h2
    | exact le_trans h1 h2

instance : IsAntisymm Value vleP := by
  constructor
  intro a b h1 h2
  cases a <;> cases b <;>
    simp only [vleP, vleB, decide_eq_true_eq] at h1 h2 <;>
    first
    | rfl
    | exact congrArg Value.str (le_antisymm h1 h2)
    | exact congrArg Value.num (le_antisymm h1 h2)
    | simp at h1
    | simp at h2

/-- The distinct values of a column, sorted: the keys that pandas
`groupby(sort=True)` produces. -/
def sortedDistinct (l : List Value) : List Value :=
  (l.dedup).insertionSort vleP

/-- Pandas `Series.fillna('')` applied to one cell. -/
def fillnaText (v : Value) : Value :=
  if v = Value.null then Value.str "" else v

/-- The `.str.split().str.len()` of one cell: a token count for strings,
NaN (`none`) for anything else. -/
def wordCountV : Value → Option Nat
  | Value.str s => some (pySplit s).length
  | _ => none

/-- The `word_count` value of a row in `calculate_average_word_count`:
missing text is first replaced by the empty string. -/
def rowWC (r : Row) : Option Nat := wordCountV (fillnaText r.text)

/-- Pandas `Series.mean()` with NaN skipped: `none` (NaN) when no numeric
entry is present. -/
def meanOpt (l : List (Option Nat)) : Option Rat :=
  if (l.filterMap id).length = 0 then none
  else some (((l.filterMap id).sum : Rat) / ((l.filterMap id).length : Rat))

/-- Python `round(x, 2)` on an exact rational, modelled as round-half-up at
two decimals. -/
def round2 (q : Rat) : Rat := ((Rat.floor (q * 100 + 1 / 2) : Int) : Rat) / 100

/-- Rounding that passes NaN through, as Python `round` does on NaN. -/
def roundOpt (x : Option Rat) : Option Rat := x.map round2

/-- The rows whose label survives `dropna(subset=[category_column])`. -/
def nonNullCatRows (rows : List Row) : List Row :=
  rows.filter (fun r => r.cat ≠ Value.null)

/-- The group keys of `groupby(category_column)` after the `dropna`. -/
def groupCats (rows : List Row) : List Value :=
  sortedDistinct ((nonNullCatRows rows).map Row.cat)

/-- The per-group mean word count for category value `c`, rounded to two
decimals. -/
def catMean (rows : List Row) (c : Value) : Option Rat :=
  roundOpt (meanOpt (((nonNullCatRows rows).filter
    (fun r => r.cat = c)).map rowWC))

/-- `DataExplorer.calculate_average_word_count`: overall mean word count
under `total` plus per-category means, all rounded to two decimals; the
empty dict when a column is absent. -/
def calculate_average_word_count (df : DF) : Dict (Option Rat) :=
  if df.hasText && df.hasCat then
    (groupCats df.rows).foldl
      (fun d c => insertD d (categoryKey c) (catMean df.rows c))
      [("total", roundOpt (meanOpt (df.rows.map rowWC)))]
  else []

theorem meanOpt_perm {l₁ l₂ : List (Option Nat)} (h : l₁.Perm l₂) :
    meanOpt l₁ = meanOpt l₂ := by
  unfold meanOpt
  rw [(h.filterMap id).length_eq, (h.filterMap id).sum_eq]

theorem sortedDistinct_perm_eq {l₁ l₂ : List Value} (h : l₁.Perm l₂) :
    sortedDistinct l₁ = sortedDistinct l₂ := by
  apply List.eq_of_perm_of_sorted (r := vleP)
  · exact (List.perm_insertionSort vleP _).trans
      (h.dedup.trans (List.perm_insertionSort vleP _).symm)
  · exact List.sorted_insertionSort vleP _
  · exact List.sorted_insertionSort vleP _

theorem foldl_insertD_congr {V : Type} (key : Value → String) (f₁ f₂ : Value → V) :
    ∀ (cs : List Value) (d : Dict V), (∀ c ∈ cs, f₁ c = f₂ c) →
      cs.foldl (fun d c => insertD d (key c) (f₁ c)) d
        = cs.foldl (fun d c => insertD d (key c) (f₂ c)) d := by
  intro cs
  induction cs with
  | nil => intro d _; rfl
  | cons c cs ih =>
    intro d hf
    simp only [List.foldl_cons]
    rw [hf c (by simp)]
    exact ih _ (fun c' hc' => hf c' (by simp [hc']))

/-- The idempotence of `fillna('')` on a single cell. -/
theorem fillnaText_idem (v : Value) : fillnaText (fillnaText v) = fillnaText v := by
  cases v <;> simp [fillnaText]

theorem catMean_perm {rows₁ rows₂ : List Row} (h : rows₁.Perm rows₂) (c : Value) :
    catMean rows₁ c = catMean rows₂ c := by
  unfold catMean nonNullCatRows
  exact congrArg roundOpt (meanOpt_perm (((h.filter _).filter _).map rowWC))

/-- The per-row effect of `fillna('')` on the text column. -/
def fillRow (r : Row) : Row := Row.mk (fillnaText r.text) r.cat

theorem rowWC_fillRow (r : Row) : rowWC (fillRow r) = rowWC r :=
  congrArg wordCountV (fillnaText_idem r.text)

theorem map_filter_fill {β : Type} (f : Row → β) (p : Row → Bool)
    (hf : ∀ r, f (fillRow r) = f r) (hp : ∀ r, p (fillRow r) = p r) :
    ∀ l : List Row, ((l.map fillRow).filter p).map f = (l.filter p).map f := by
  intro l
  induction l with
  | nil => rfl
  | cons r l ih =>
    simp only [List.map_cons]
    by_cases hpr : p r = true
    · rw [List.filter_cons_of_pos (by rw [hp]; exact hpr),
        List.filter_cons_of_pos hpr]
      simp only [List.map_cons, ih, hf]
    · have hpr' : p (fillRow r) ≠ true := by rw [hp]; exact hpr
      rw [List.filter_cons_of_neg (by simpa using hpr'),
        List.filter_cons_of_neg (by simpa using hpr)]
      exact ih

theorem groupCats_map_fill (rows : List Row) :
    groupCats (rows.map fillRow) = groupCats rows := by
  unfold groupCats nonNullCatRows
  exact congrArg sortedDistinct
    (map_filter_fill Row.cat (fun r => decide (r.cat ≠ Value.null))
      (fun r => rfl) (fun r => rfl) rows)

theorem catMean_map_fill (rows : List Row) (c : Value) :
    catMean (rows.map fillRow) c = catMean rows c := by
  unfold catMean nonNullCatRows
  rw [List.filter_filter, List.filter_filter]
  exact congrArg roundOpt (congrArg meanOpt
    (map_filter_fill rowWC
      (fun r => decide (r.cat = c) && decide (r.cat ≠ Value.null))
      rowWC_fillRow (fun r => rfl) rows))

theorem map_rowWC_map_fill (rows : List Row) :
    (rows.map fillRow).map rowWC = rows.map rowWC := by
  rw [List.map_map]
  exact List.map_congr_left (fun r _ => rowWC_fillRow r)

/-- Claim C8: `calculate_average_word_count` is invariant under any
permutation of the rows, and replacing every missing text by the empty
string (a zero-word text) leaves every average unchanged — a missing text
contributes a word count of zero, never a missing value. -/
theorem calculate_average_word_count_perm_inv (df₁ df₂ : DF)
    (hT : df₁.hasText = df₂.hasText) (hC : df₁.hasCat = df₂.hasCat)
    (hperm : df₁.rows.Perm df₂.rows) :
    calculate_average_word_count df₁ = calculate_average_word_count df₂ ∧
    ∀ df : DF, calculate_average_word_count
        (DF.mk df.hasText df.hasCat (df.rows.map fillRow))
      = calculate_average_word_count df := by
  constructor
  · unfold calculate_average_word_count
    rw [hT, hC]
    by_cases h : (df₂.hasText && df₂.hasCat) = true
    · rw [if_pos h, if_pos h]
      have hg : groupCats df₁.rows = groupCats df₂.rows := by
        unfold groupCats nonNullCatRows
        exact sortedDistinct_perm_eq ((hperm.filter _).map Row.cat)
      have hm : meanOpt (df₁.rows.map rowWC) = meanOpt (df₂.rows.map rowWC) :=
        meanOpt_perm (hperm.map rowWC)
      rw [hg, hm]
      exact foldl_insertD_congr categoryKey _ _ (groupCats df₂.rows) _
        (fun c _ => catMean_perm hperm c)
    · rw [if_neg h, if_neg h]
  · intro df
    unfold calculate_average_word_count
    dsimp only
    by_cases h : (df.hasText && df.hasCat) = true
    · rw [if_pos h, if_pos h, groupCats_map_fill, map_rowWC_map_fill]
      exact foldl_insertD_congr categoryKey _ _ (groupCats df.rows) _
        (fun c _ => catMean_map_fill df.rows c)
    · rw [if_neg h, if_neg h]

/-- Claim C8 witness: the theorem applied to a concrete two-row table and
its reversal. -/
theorem calculate_average_word_count_perm_inv_witness :
    calculate_average_word_count (DF.mk true true
        [Row.mk (Value.str "a b") (Value.str "1"), Row.mk Value.null (Value.str "0")])
      = calculate_average_word_count (DF.mk true true
        [Row.mk Value.null (Value.str "0"), Row.mk (Value.str "a b") (Value.str "1")]) ∧
    ∀ df : DF, calculate_average_word_count
        (DF.mk df.hasText df.hasCat (df.rows.map fillRow))
      = calculate_average_word_count df :=
  calculate_average_word_count_perm_inv _ _ rfl rfl (by decide)

-- get_n_longest_texts_by_category -------------------------------------------

/-- The rows surviving `dropna(subset=[text_column, category_column])`. -/
def dropnaTextCat (rows : List Row) : List Row :=
  rows.filter (fun r => r.text ≠ Value.null ∧ r.cat ≠ Value.null)

/-- The `word_count` sort key of a row (NaN for non-string text). -/
def wcKey (r : Row) : Option Nat := wordCountV r.text

/-- Descending order on sort keys with NaN placed last, as
`sort_values(ascending=False)` arranges them (`na_position` defaults to
last). -/
def wcGE : Option Nat → Option Nat → Prop
  | some x, some y => y ≤ x
  | some _, none => True
  | none, none => True
  | none, some _ => False

instance : DecidableRel wcGE := fun a b =>
  match a, b with
  | some x, some y => inferInstanceAs (Decidable (y ≤ x))
  | some _, none => Decidable.isTrue trivial
  | none, none => Decidable.isTrue trivial
  | none, some _ => Decidable.isFalse (fun h => h)

/-- The contract of `sort_values(by='word_count', ascending=False)`: some
arrangement of the (dropna-filtered) rows with keys descending.  Which
arrangement of equal keys results is left unspecified, because the default
sort kind (quicksort) is not stable. -/
def sortContract (rows sorted : List Row) : Prop :=
  sorted.Perm (dropnaTextCat rows) ∧
  sorted.Pairwise (fun a b => wcGE (wcKey a) (wcKey b))

/-- The worker of `groupby(category).head(n)`: keep a row when fewer than
`n` rows of its category have been seen before it. -/
def groupHeadGo (n : Nat) : (Value → Nat) → List Row → List Row
  | _, [] => []
  | seen, r :: rs =>
    if seen r.cat < n then
      r :: groupHeadGo n (fun c => if c = r.cat then seen c + 1 else seen c) rs
    else groupHeadGo n (fun c => if c = r.cat then seen c + 1 else seen c) rs

/-- `groupby(category_column).head(n)`: the first `n` rows of every
category, in the order of the (sorted) frame. -/
def groupHead (n : Nat) (rows : List Row) : List Row :=
  groupHeadGo n (fun _ => 0) rows

/-- The dict built by the final `groupby` loop: normalized category key →
the texts of that category's kept rows, in frame order. -/
def longestDict (kept : List Row) : Dict (List Value) :=
  (sortedDistinct (kept.map Row.cat)).foldl
    (fun d c => insertD d (categoryKey c)
      ((kept.filter (fun r => r.cat = c)).map Row.text)) []

/-- The result of `get_n_longest_texts_by_category` once the arrangement
chosen by `sort_values` is fixed. -/
def get_n_longest_given (sorted : List Row) (n : Nat) : Dict (List Value) :=
  longestDict (groupHead n sorted)

/-- `DataExplorer.get_n_longest_texts_by_category`, relational in the
arrangement produced by the (unstable) sort: `result` is a possible return
value. -/
def get_n_longest_texts_by_category (df : DF) (n : Nat)
    (result : Dict (List Value)) : Prop :=
  if (df.hasText && df.hasCat) = true then
    ∃ sorted, sortContract df.rows sorted ∧ result = get_n_longest_given sorted n
  else result = []

theorem groupHeadGo_sublist (n : Nat) :
    ∀ (l : List Row) (seen : Value → Nat), (groupHeadGo n seen l).Sublist l := by
  intro l
  induction l with
  | nil => intro seen; exact List.Sublist.refl _
  | cons r rs ih =>
    intro seen
    rw [groupHeadGo]
    by_cases h : seen r.cat < n
    · rw [if_pos h]; exact (ih _).cons₂ r
    · rw [if_neg h]; exact (ih _).cons r

theorem groupHeadGo_filter (n : Nat) (c : Value) :
    ∀ (l : List Row) (seen : Value → Nat),
      (groupHeadGo n seen l).filter (fun r => r.cat = c)
        = (l.filter (fun r => r.cat = c)).take (n - seen c) := by
  intro l
  induction l with
  | nil => intro seen; simp [groupHeadGo]
  | cons r rs ih =>
    intro seen
    rw [groupHeadGo]
    by_cases hc : r.cat = c
    · have hbump : (if c = r.cat then seen c + 1 else seen c) = seen c + 1 :=
        if_pos hc.symm
      have hseen : seen r.cat = seen c := by rw [hc]
      by_cases h : seen r.cat < n
      · rw [if_pos h, List.filter_cons_of_pos (by simp [hc]),
          List.filter_cons_of_pos (by simp [hc]), ih]
        have harith : n - seen c = (n - (seen c + 1)) + 1 := by omega
        rw [harith, List.take_succ_cons, hbump]
      · rw [if_neg h, ih, List.filter_cons_of_pos (by simp [hc]), hbump]
        have hz : n - seen c = 0 := by omega
        have hz' : n - (seen c + 1) = 0 := by omega
        rw [hz, hz', List.take_zero, List.take_zero]
    · have hbump : (if c = r.cat then seen c + 1 else seen c) = seen c :=
        if_neg (fun he => hc he.symm)
      by_cases h : seen r.cat < n
      · rw [if_pos h, List.filter_cons_of_neg (by simp [hc]),
          List.filter_cons_of_neg (by simp [hc]), ih, hbump]
      · rw [if_neg h, List.filter_cons_of_neg (by simp [hc]), ih, hbump]

theorem mem_insertD {V : Type} (d : Dict V) (k : String) (v : V)
    (p : String × V) (hp : p ∈ insertD d k v) : p ∈ d ∨ p = (k, v) := by
  unfold insertD at hp
  by_cases h : hasKeyD d k
  · rw [if_pos h] at hp
    obtain ⟨q, hq, hpq⟩ := List.mem_map.mp hp
    by_cases hqk : q.1 = k
    · right; rw [← hpq, if_pos hqk]
    · left; rw [← hpq, if_neg hqk]; exact hq
  · rw [if_neg h] at hp
    rcases List.mem_append.mp hp with h' | h'
    · exact Or.inl h'
    · exact Or.inr (List.mem_singleton.mp h')

theorem mem_foldl_insertD {V : Type} (key : Value → String) (f : Value → V) :
    ∀ (cs : List Value) (d : Dict V) (p : String × V),
      p ∈ cs.foldl (fun d c => insertD d (key c) (f c)) d →
      p ∈ d ∨ ∃ c ∈ cs, p = (key c, f c) := by
  intro cs
  induction cs with
  | nil => intro d p hp; exact Or.inl hp
  | cons c cs ih =>
    intro d p hp
    simp only [List.foldl_cons] at hp
    rcases ih _ p hp with h' | ⟨c', hc', hp'⟩
    · rcases mem_insertD _ _ _ _ h' with h'' | h''
      · exact Or.inl h''
      · exact Or.inr ⟨c, by simp, h''⟩
    · exact Or.inr ⟨c', by simp [hc'], hp'⟩

instance : DecidableRel (fun a b : Row => wcGE (wcKey a) (wcKey b)) :=
  fun a b => inferInstanceAs (Decidable (wcGE (wcKey a) (wcKey b)))

/-- Claim C3 (amended): any possible result of
`get_n_longest_texts_by_category` holds, per entry, at most `n` texts, all
verbatim texts of rows of that category with non-null text and label,
ordered by word count descending; which of two equal-count texts comes
first is not guaranteed (the sort kind is quicksort, which is unstable). -/
theorem get_n_longest_texts_by_category_props (df : DF) (n : Nat)
    (res : Dict (List Value))
    (hrel : get_n_longest_texts_by_category df n res) :
    ∀ p ∈ res, p.2.length ≤ n ∧
      (∃ c : Value, categoryKey c = p.1 ∧ ∀ t ∈ p.2,
        ∃ r ∈ df.rows, r.cat = c ∧ r.text = t ∧ r.text ≠ Value.null ∧
          r.cat ≠ Value.null) ∧
      p.2.Pairwise (fun a b => wcGE (wordCountV a) (wordCountV b)) := by
  intro p hp
  unfold get_n_longest_texts_by_category at hrel
  by_cases hcols : (df.hasText && df.hasCat) = true
  · rw [if_pos hcols] at hrel
    obtain ⟨sorted, ⟨hperm, hsorted⟩, heq⟩ := hrel
    subst heq
    unfold get_n_longest_given longestDict at hp
    rcases mem_foldl_insertD categoryKey _ _ _ p hp with h0 | ⟨c, _, hpc⟩
    · exact absurd h0 (List.not_mem_nil p)
    subst hpc
    have hsub : (groupHead n sorted).Sublist sorted := groupHeadGo_sublist n sorted _
    refine ⟨?_, ⟨c, rfl, ?_⟩, ?_⟩
    · rw [List.length_map]
      rw [show groupHead n sorted = groupHeadGo n (fun _ => 0) sorted from rfl,
        groupHeadGo_filter, List.length_take]
      exact le_trans (min_le_left _ _) (le_of_eq (Nat.sub_zero n))
    · intro t ht
      obtain ⟨r, hr, rfl⟩ := List.mem_map.mp ht
      have hr' := List.mem_filter.mp hr
      have hrc : r.cat = c := of_decide_eq_true hr'.2
      have hrs : r ∈ sorted := hsub.subset hr'.1
      have hrd : r ∈ dropnaTextCat df.rows := hperm.subset hrs
      have hrd' := List.mem_filter.mp hrd
      have hnn : r.text ≠ Value.null ∧ r.cat ≠ Value.null :=
        of_decide_eq_true hrd'.2
      exact ⟨r, hrd'.1, hrc, rfl, hnn.1, hnn.2⟩
    · have hkept : ((groupHead n sorted).filter (fun r => r.cat = c)).Pairwise
          (fun a b => wcGE (wcKey a) (wcKey b)) :=
        hsorted.sublist ((List.filter_sublist _).trans hsub)
      exact hkept.map Row.text (fun a b h => h)
  · rw [if_neg hcols] at hrel
    subst hrel
    exact absurd hp (List.not_mem_nil p)

/-- A two-row table with two equal-length texts in the same category, used
to exercise the tie-breaking behaviour of the longest-texts statistic. -/
def tieDF : DF :=
  DF.mk true true
    [Row.mk (Value.str "a b") (Value.str "1"),
     Row.mk (Value.str "c d") (Value.str "1")]

/-- Claim C3 counterexample: on `tieDF`, the arrangement that lists the
second row first satisfies everything `sort_values(kind='quicksort')`
guarantees, and under it the method returns the two equal-count texts in
the reverse of their original row order — the stable-tie-break guarantee is
not provided by the code. -/
theorem get_n_longest_texts_tie_order_counterexample :
    get_n_longest_texts_by_category tieDF 2
      [("1", [Value.str "c d", Value.str "a b"])] ∧
    tieDF.rows.map Row.text = [Value.str "a b", Value.str "c d"] := by
  constructor
  · show ∃ sorted, sortContract tieDF.rows sorted ∧
      [("1", [Value.str "c d", Value.str "a b"])] = get_n_longest_given sorted 2
    refine ⟨[Row.mk (Value.str "c d") (Value.str "1"),
             Row.mk (Value.str "a b") (Value.str "1")], ⟨?_, ?_⟩, ?_⟩
    · decide
    · decide
    · decide
  · rfl

/-- A two-row table with texts of different lengths in one category. -/
def longestWitnessDF : DF :=
  DF.mk true true
    [Row.mk (Value.str "x y z") (Value.str "1"),
     Row.mk (Value.str "w") (Value.str "1")]

/-- Claim C3 witness: the amended theorem applied to `longestWitnessDF`
with `n = 1` and the result produced by the descending arrangement. -/
theorem get_n_longest_texts_by_category_props_witness :
    get_n_longest_texts_by_category longestWitnessDF 1
      [("1", [Value.str "x y z"])] ∧
    ∀ p ∈ ([("1", [Value.str "x y z"])] : Dict (List Value)),
      p.2.length ≤ 1 ∧
      (∃ c : Value, categoryKey c = p.1 ∧ ∀ t ∈ p.2,
        ∃ r ∈ longestWitnessDF.rows, r.cat = c ∧ r.text = t ∧
          r.text ≠ Value.null ∧ r.cat ≠ Value.null) ∧
      p.2.Pairwise (fun a b => wcGE (wordCountV a) (wordCountV b)) := by
  have hrel : get_n_longest_texts_by_category longestWitnessDF 1
      [("1", [Value.str "x y z"])] := by
    show ∃ sorted, sortContract longestWitnessDF.rows sorted ∧
      [("1", [Value.str "x y z"])] = get_n_longest_given sorted 1
    refine ⟨[Row.mk (Value.str "x y z") (Value.str "1"),
             Row.mk (Value.str "w") (Value.str "1")], ⟨?_, ?_⟩, ?_⟩
    · decide
    · decide
    · decide
  exact ⟨hrel, get_n_longest_texts_by_category_props _ _ _ hrel⟩

-- get_most_common_words ------------------------------------------------------

/-- Python `str.lower()` (ASCII reading). -/
def pyLower (s : String) : String :=
  String.mk (s.toList.map Char.toLower)

/-- The per-text cleaning of `get_most_common_words`: lowercase, then strip
everything that is neither a word character nor whitespace. -/
def cleanText (s : String) : String := stripPunct (pyLower s)

/-- The cells of the text column after `dropna`, `.str.lower()` and
`.str.replace(r'[^\w\s]', '')`: the two string accessors turn a non-string
cell into NaN (`none`). -/
def mcwCells (df : DF) : List (Option String) :=
  ((df.rows.map Row.text).filter (fun v => v ≠ Value.null)).map
    (fun v => match v with
      | Value.str s => some (cleanText s)
      | _ => none)

/-- The cleaned texts that reach the `' '.join`. -/
def cleanedTexts (df : DF) : List String := (mcwCells df).filterMap id

/-- The token list of the joined cleaned text. -/
def mcwTokens (df : DF) : List String :=
  pySplit (String.intercalate " " (cleanedTexts df))

/-- Pandas `value_counts` on the token list: `(token, count)` pairs sorted
by count descending. -/
def word_counts (ws : List String) : List (String × Nat) :=
  (ws.dedup.map (fun w => (w, ws.count w))).insertionSort cntGE

/-- `DataExplorer.get_most_common_words`: the `n` most frequent tokens,
`some []` when the column is absent or no token exists, `none` when the
`' '.join` raises `TypeError` on a NaN produced from a non-string cell. -/
def get_most_common_words_result (df : DF) (n : Nat) : Option (List String) :=
  if df.hasText then
    if (mcwCells df).all (fun c => c.isSome) then
      if (mcwTokens df).isEmpty then some []
      else some (((word_counts (mcwTokens df)).take n).map (fun p => p.1))
    else none
  else some []

/-- Whether a cell is a string or missing; the text cells of a table loaded
from a CSV file always are. -/
def isStrOrNull : Value → Bool
  | Value.str _ => true
  | Value.null => true
  | _ => false

theorem word_counts_perm (ws : List String) :
    (word_counts ws).Perm (ws.dedup.map (fun w => (w, ws.count w))) :=
  List.perm_insertionSort cntGE _

theorem mem_word_counts (ws : List String) (p : String × Nat)
    (hp : p ∈ word_counts ws) : p.1 ∈ ws.dedup ∧ p.2 = ws.count p.1 := by
  have := (word_counts_perm ws).subset hp
  obtain ⟨w, hw, hpw⟩ := List.mem_map.mp this
  rw [← hpw]
  exact ⟨hw, rfl⟩

/-- Claim C7 counterexample: on a table whose text cell is the number `1`,
the string accessors produce NaN and the `' '.join` raises `TypeError`, so
no list is returned at all. -/
theorem get_most_common_words_numeric_text_counterexample :
    get_most_common_words_result
      (DF.mk true true [Row.mk (Value.num 1) (Value.str "1")]) 10 = none := by
  decide

/-- Claim C7 (amended): on any table whose text cells are all strings or
missing, `get_most_common_words` returns a list of at most `n` tokens, each
occurring in the tokenization of the cleaned joined text, ordered by
descending frequency in that text. -/
theorem get_most_common_words_props (df : DF) (n : Nat)
    (hstr : ∀ r ∈ df.rows, isStrOrNull r.text = true) :
    ∃ l, get_most_common_words_result df n = some l ∧ l.length ≤ n ∧
      (∀ w ∈ l, w ∈ mcwTokens df) ∧
      l.Pairwise (fun a b => (mcwTokens df).count b ≤ (mcwTokens df).count a) := by
  unfold get_most_common_words_result
  by_cases hT : df.hasText = true
  · rw [if_pos hT]
    have hall : (mcwCells df).all (fun c => c.isSome) = true := by
      rw [List.all_eq_true]
      intro c hc
      obtain ⟨v, hv, hcv⟩ := List.mem_map.mp hc
      have hv' := List.mem_filter.mp hv
      obtain ⟨r, hr, hrv⟩ := List.mem_map.mp hv'.1
      have hnn : v ≠ Value.null := of_decide_eq_true hv'.2
      have := hstr r hr
      rw [hrv] at this
      cases v with
      | str s => rw [← hcv]; rfl
      | num q => simp [isStrOrNull] at this
      | null => exact absurd rfl hnn
    rw [if_pos hall]
    by_cases hemp : (mcwTokens df).isEmpty = true
    · rw [if_pos hemp]
      exact ⟨[], rfl, by simp, by simp, List.Pairwise.nil⟩
    · rw [if_neg hemp]
      refine ⟨_, rfl, ?_, ?_, ?_⟩
      · rw [List.length_map]
        exact le_trans (List.length_take_le _ _) (le_refl _)
      · intro w hw
        obtain ⟨p, hp, hpw⟩ := List.mem_map.mp hw
        have hp' := (List.take_subset n _) hp
        have := (mem_word_counts _ p hp').1
        rw [← hpw]
        exact (List.dedup_subset _) this
      · have hsorted : List.Pairwise cntGE (word_counts (mcwTokens df)) :=
          List.sorted_insertionSort cntGE _
        have htake : List.Pairwise cntGE ((word_counts (mcwTokens df)).take n) :=
          hsorted.sublist (List.take_sublist n _)
        have hcnt : List.Pairwise
            (fun p q : String × Nat => (mcwTokens df).count q.1 ≤ (mcwTokens df).count p.1)
            ((word_counts (mcwTokens df)).take n) := by
          refine List.Pairwise.imp_of_mem ?_ htake
          intro p q hp hq hpq
          have hp' := mem_word_counts _ p ((List.take_subset n _) hp)
          have hq' := mem_word_counts _ q ((List.take_subset n _) hq)
          rw [← hp'.2, ← hq'.2]
          exact hpq
        exact List.Pairwise.map (fun p : String × Nat => p.1)
          (fun a b h => h) hcnt
  · rw [if_neg hT]
    exact ⟨[], rfl, by simp, by simp, List.Pairwise.nil⟩

/-- Claim C7 witness: the amended theorem applied to a concrete table whose
texts are strings or missing. -/
theorem get_most_common_words_props_witness :
    (∀ r ∈ (DF.mk true true
        [Row.mk (Value.str "b b a") (Value.str "1"),
         Row.mk Value.null (Value.str "0")]).rows, isStrOrNull r.text = true) ∧
    ∃ l, get_most_common_words_result (DF.mk true true
        [Row.mk (Value.str "b b a") (Value.str "1"),
         Row.mk Value.null (Value.str "0")]) 2 = some l ∧ l.length ≤ 2 ∧
      (∀ w ∈ l, w ∈ mcwTokens (DF.mk true true
        [Row.mk (Value.str "b b a") (Value.str "1"),
         Row.mk Value.null (Value.str "0")])) ∧
      l.Pairwise (fun a b => (mcwTokens (DF.mk true true
        [Row.mk (Value.str "b b a") (Value.str "1"),
         Row.mk Value.null (Value.str "0")])).count b ≤ (mcwTokens (DF.mk true true
        [Row.mk (Value.str "b b a") (Value.str "1"),
         Row.mk Value.null (Value.str "0")])).count a) :=
  ⟨by decide, get_most_common_words_props _ 2 (by decide)⟩

-- count_uppercase_words_by_category -----------------------------------------

theorem lookupD_cons_self {V : Type} (k : String) (v : V) (d : Dict V) :
    lookupD ((k, v) :: d) k = some v := by
  simp [lookupD, List.find?]

theorem lookupD_cons_ne {V : Type} (k k' : String) (v : V) (d : Dict V)
    (h : k' ≠ k) : lookupD ((k', v) :: d) k = lookupD d k := by
  rw [lookupD, List.find?_cons_of_neg _ (by simp [h]), lookupD]

theorem foldl_insertD_eq_append {V : Type} (key : Value → String) (f : Value → V)
    (cs : List Value) (d : Dict V)
    (hnd : (cs.map key).Nodup)
    (hfresh : ∀ k ∈ cs.map key, hasKeyD d k = false) :
    cs.foldl (fun d c => insertD d (key c) (f c)) d
      = d ++ cs.map (fun c => (key c, f c)) := by
  have hfm := List.foldl_map (fun c : Value => (key c, f c))
    (fun (d : Dict V) (p : String × V) => insertD d p.1 p.2) cs d
  rw [← hfm]
  apply foldl_insertD_fresh
  · simpa [List.map_map, Function.comp_def] using hnd
  · intro k hk
    apply hfresh
    simpa [List.map_map, Function.comp_def] using hk

theorem lookupD_map_assoc {V : Type} (key : Value → String) (f : Value → V) :
    ∀ (cs : List Value), (cs.map key).Nodup → ∀ c ∈ cs,
      lookupD (cs.map (fun c => (key c, f c))) (key c) = some (f c) := by
  intro cs
  induction cs with
  | nil => intro _ c hc; exact absurd hc (List.not_mem_nil c)
  | cons c' cs ih =>
    intro hnd c hc
    simp only [List.map_cons, List.nodup_cons] at hnd
    rcases List.mem_cons.mp hc with rfl | hc'
    · exact lookupD_cons_self _ _ _
    · have hne : key c' ≠ key c := by
        intro he
        apply hnd.1
        rw [he]
        exact List.mem_map.mpr ⟨c, hc', rfl⟩
      rw [List.map_cons, lookupD_cons_ne _ _ _ _ hne]
      exact ih hnd.2 c hc'

/-- Python `str.isupper()` (ASCII reading): at least one cased character,
and no cased character lower-case. -/
def pyIsUpper (s : String) : Bool :=
  s.toList.any Char.isAlpha && s.toList.all (fun c => !c.isLower)

/-- The `_count_uppercase` helper: for strings, the number of
whitespace-split tokens satisfying `isupper()`; 0 for anything else. -/
def countUppercaseCell : Value → Nat
  | Value.str s => ((pySplit s).filter pyIsUpper).length
  | _ => 0

/-- The `uppercase_word_count` value of a row (`fillna('')` applied
first). -/
def rowUpperCount (r : Row) : Nat := countUppercaseCell (fillnaText r.text)

/-- `DataExplorer.count_uppercase_words_by_category`: the overall uppercase
token count under `total`, plus the per-category sums over the rows with a
non-null label; the empty dict when a column is absent. -/
def count_uppercase_words_by_category (df : DF) : Dict Nat :=
  if df.hasText && df.hasCat then
    (groupCats df.rows).foldl
      (fun d c => insertD d (categoryKey c)
        ((((nonNullCatRows df.rows).filter (fun r => r.cat = c)).map
          rowUpperCount).sum))
      [("total", (df.rows.map rowUpperCount).sum)]
  else []

/-- The claim's reading of an upper-case token: one that contains no
lower-case letter (spec wording, to be compared with `pyIsUpper`). -/
def claimedUpperToken (s : String) : Bool :=
  s.toList.all (fun c => !c.isLower)

/-- Claim C4 counterexample: the token `"123"` contains no lower-case
letter, so the claim counts it, but `isupper()` is false on it (it has no
cased character), so the code counts 0 on a one-row table with text
`"123"`. -/
theorem count_uppercase_digits_counterexample :
    lookupD (count_uppercase_words_by_category
      (DF.mk true true [Row.mk (Value.str "123") (Value.str "1")])) "total"
      = some 0 ∧
    ((pySplit "123").filter claimedUpperToken).length = 1 := by
  constructor
  · decide
  · decide

/-- Claim C4 (amended): a token is counted exactly when `isupper()` holds —
it has at least one cased character and no lower-case one (so `HELLO` and
`OK` count, `HeLLo` and the all-digit `123` do not); the `total` entry is
the sum over all rows and each category entry sums the rows with that
non-null label, provided the normalized category keys are distinct and none
is `"total"`. -/
theorem count_uppercase_words_by_category_sums (df : DF)
    (h : (df.hasText && df.hasCat) = true)
    (hnd : ((groupCats df.rows).map categoryKey).Nodup)
    (ht : "total" ∉ (groupCats df.rows).map categoryKey) :
    pyIsUpper "HELLO" = true ∧ pyIsUpper "OK" = true ∧
    pyIsUpper "HeLLo" = false ∧ pyIsUpper "123" = false ∧
    lookupD (count_uppercase_words_by_category df) "total"
      = some ((df.rows.map rowUpperCount).sum) ∧
    ∀ c ∈ groupCats df.rows,
      lookupD (count_uppercase_words_by_category df) (categoryKey c)
        = some ((((nonNullCatRows df.rows).filter (fun r => r.cat = c)).map
            rowUpperCount).sum) := by
  refine ⟨by decide, by decide, by decide, by decide, ?_, ?_⟩ <;>
    unfold count_uppercase_words_by_category <;> rw [if_pos h] <;>
    rw [foldl_insertD_eq_append categoryKey _ _ _ hnd
      (fun k hk => by
        simp only [hasKeyD, List.any_cons, List.any_nil, Bool.or_false,
          decide_eq_false_iff_not]
        intro he
        exact ht (he ▸ hk))]
  · rw [List.singleton_append, lookupD_cons_self]
  · intro c hc
    have hne : "total" ≠ categoryKey c := by
      intro he
      exact ht (he ▸ List.mem_map.mpr ⟨c, hc, rfl⟩)
    rw [List.singleton_append, lookupD_cons_ne _ _ _ _ hne]
    exact lookupD_map_assoc categoryKey _ _ hnd c hc

/-- Claim C4 witness: the amended theorem applied to a concrete three-row
table with texts `"HELLO world"`, `"OK"` and `"A"` and labels `"1"`, `0.0`
and missing. -/
theorem count_uppercase_words_by_category_sums_witness :
    pyIsUpper "HELLO" = true ∧ pyIsUpper "OK" = true ∧
    pyIsUpper "HeLLo" = false ∧ pyIsUpper "123" = false ∧
    lookupD (count_uppercase_words_by_category (DF.mk true true
      [Row.mk (Value.str "HELLO world") (Value.str "1"),
       Row.mk (Value.str "OK") (Value.num 0),
       Row.mk (Value.str "A") Value.null])) "total"
      = some (((DF.mk true true
      [Row.mk (Value.str "HELLO world") (Value.str "1"),
       Row.mk (Value.str "OK") (Value.num 0),
       Row.mk (Value.str "A") Value.null]).rows.map rowUpperCount).sum) ∧
    ∀ c ∈ groupCats (DF.mk true true
      [Row.mk (Value.str "HELLO world") (Value.str "1"),
       Row.mk (Value.str "OK") (Value.num 0),
       Row.mk (Value.str "A") Value.null]).rows,
      lookupD (count_uppercase_words_by_category (DF.mk true true
        [Row.mk (Value.str "HELLO world") (Value.str "1"),
         Row.mk (Value.str "OK") (Value.num 0),
         Row.mk (Value.str "A") Value.null])) (categoryKey c)
        = some ((((nonNullCatRows (DF.mk true true
            [Row.mk (Value.str "HELLO world") (Value.str "1"),
             Row.mk (Value.str "OK") (Value.num 0),
             Row.mk (Value.str "A") Value.null]).rows).filter
            (fun r => r.cat = c)).map rowUpperCount).sum) :=
  count_uppercase_words_by_category_sums _ rfl (by decide) (by decide)

-- DataProcessor cleaning stages ----------------------------------------------

/-- Whether a cell is a string. -/
def isStrV : Value → Bool
  | Value.str _ => true
  | _ => false

/-- `DataProcessor.select_columns` with the configured allow-list
`['Text', 'Biased']`: fails when a requested column is missing, otherwise
projects to exactly those two columns. -/
def select_columns (df : DF) : Option DF :=
  if df.hasText && df.hasCat then some (DF.mk true true df.rows) else none

/-- `DataProcessor.remove_unclassified_rows` on the label column: drops the
rows with a missing label; fails when the column is missing. -/
def remove_unclassified_rows (df : DF) : Option DF :=
  if df.hasCat then some (DF.mk df.hasText df.hasCat (nonNullCatRows df.rows))
  else none

/-- The effect of `Series.str.lower()` on one cell of an object column that
contains at least one string: strings are lowercased, anything else
(numbers included) becomes NaN. -/
def lowerCell : Value → Value
  | Value.str s => Value.str (pyLower s)
  | _ => Value.null

/-- Whether `.str.lower()` raises `AttributeError` on the text column: it
does exactly when the column holds no string at all (its dtype is then not
a string dtype). -/
def lowercaseRaises (df : DF) : Bool :=
  !(df.rows.any (fun r => isStrV r.text))

/-- `DataProcessor.convert_to_lowercase`: fails (`none`) when the column is
missing; when `.str.lower()` raises `AttributeError` the exception is
caught, only logged, and the frame is returned unchanged; otherwise the
column is replaced by its `.str.lower()`. -/
def convert_to_lowercase (df : DF) : Option DF :=
  if df.hasText then
    if df.rows.any (fun r => isStrV r.text) then
      some (DF.mk df.hasText df.hasCat
        (df.rows.map (fun r => Row.mk (lowerCell r.text) r.cat)))
    else some df
  else none

/-- The effect of the punctuation-removal lambda on one cell: strings are
stripped, non-strings pass through via the `isinstance` guard. -/
def punctCell : Value → Value
  | Value.str s => Value.str (stripPunct s)
  | v => v

/-- `DataProcessor.remove_punctuation`: fails when the column is missing,
otherwise strips punctuation from the string cells. -/
def remove_punctuation (df : DF) : Option DF :=
  if df.hasText then
    some (DF.mk df.hasText df.hasCat
      (df.rows.map (fun r => Row.mk (punctCell r.text) r.cat)))
  else none

/-- `DataProcessor.run_processing_pipeline` after a successful load: the
four cleaning stages in order, each `None` aborting the rest. -/
def run_processing_pipeline_from (df : DF) : Option DF :=
  (select_columns df).bind (fun d1 =>
    (remove_unclassified_rows d1).bind (fun d2 =>
      (convert_to_lowercase d2).bind (fun d3 =>
        remove_punctuation d3)))

/-- Claim C2 counterexample: lowercasing a column holding the string `"A"`
and the number `3` lowercases the string but turns the number into NaN —
the non-string value is not passed through unchanged. -/
theorem convert_to_lowercase_numeric_counterexample :
    convert_to_lowercase (DF.mk true true
      [Row.mk (Value.str "A") (Value.str "1"),
       Row.mk (Value.num 3) (Value.str "1")])
      = some (DF.mk true true
      [Row.mk (Value.str "a") (Value.str "1"),
       Row.mk Value.null (Value.str "1")]) ∧
    (DF.mk true true
      [Row.mk (Value.str "A") (Value.str "1"),
       Row.mk (Value.num 3) (Value.str "1")]).rows.map Row.text
      = [Value.str "A", Value.num 3] := by
  constructor
  · decide
  · rfl

/-- Claim C2 (amended): when the text column is present, string cells are
lowercased; missing cells stay missing; but a non-string, non-missing cell
becomes missing (NaN), not unchanged — and when the column contains no
string at all, `.str.lower()` raises `AttributeError`, which is caught and
the whole frame is returned unchanged. -/
theorem convert_to_lowercase_cases (df : DF) (h : df.hasText = true) :
    lowerCell Value.null = Value.null ∧
    (∀ s, lowerCell (Value.str s) = Value.str (pyLower s)) ∧
    (∀ q, lowerCell (Value.num q) = Value.null) ∧
    (df.rows.any (fun r => isStrV r.text) = true →
      convert_to_lowercase df = some (DF.mk df.hasText df.hasCat
        (df.rows.map (fun r => Row.mk (lowerCell r.text) r.cat)))) ∧
    (df.rows.any (fun r => isStrV r.text) = false →
      convert_to_lowercase df = some df) := by
  refine ⟨rfl, fun s => rfl, fun q => rfl, ?_, ?_⟩
  · intro hs
    unfold convert_to_lowercase
    rw [if_pos h, if_pos hs]
  · intro hs
    unfold convert_to_lowercase
    rw [if_pos h, if_neg (by rw [hs]; exact Bool.false_ne_true)]

/-- Claim C2 witness: the amended theorem applied to a concrete table with
a string, a missing and a numeric text cell. -/
theorem convert_to_lowercase_cases_witness :
    lowerCell Value.null = Value.null ∧
    (∀ s, lowerCell (Value.str s) = Value.str (pyLower s)) ∧
    (∀ q, lowerCell (Value.num q) = Value.null) ∧
    ((DF.mk true true [Row.mk (Value.str "Ab") (Value.str "1"),
        Row.mk Value.null (Value.str "0"),
        Row.mk (Value.num 2) (Value.str "1")]).rows.any
          (fun r => isStrV r.text) = true →
      convert_to_lowercase (DF.mk true true
        [Row.mk (Value.str "Ab") (Value.str "1"),
         Row.mk Value.null (Value.str "0"),
         Row.mk (Value.num 2) (Value.str "1")])
        = some (DF.mk true true
          ((DF.mk true true [Row.mk (Value.str "Ab") (Value.str "1"),
            Row.mk Value.null (Value.str "0"),
            Row.mk (Value.num 2) (Value.str "1")]).rows.map
            (fun r => Row.mk (lowerCell r.text) r.cat)))) ∧
    ((DF.mk true true [Row.mk (Value.str "Ab") (Value.str "1"),
        Row.mk Value.null (Value.str "0"),
        Row.mk (Value.num 2) (Value.str "1")]).rows.any
          (fun r => isStrV r.text) = false →
      convert_to_lowercase (DF.mk true true
        [Row.mk (Value.str "Ab") (Value.str "1"),
         Row.mk Value.null (Value.str "0"),
         Row.mk (Value.num 2) (Value.str "1")])
        = some (DF.mk true true
          [Row.mk (Value.str "Ab") (Value.str "1"),
           Row.mk Value.null (Value.str "0"),
           Row.mk (Value.num 2) (Value.str "1")])) :=
  convert_to_lowercase_cases _ rfl

/-- Claim C5 counterexample: on a table whose text column is entirely
numeric, `.str.lower()` raises `AttributeError` — a failure of the
lowercasing stage — yet the pipeline does not abort: it runs the
punctuation stage and completes with a result instead of `None`. -/
theorem pipeline_continues_after_lowercase_failure :
    lowercaseRaises (DF.mk true true [Row.mk (Value.num 1) (Value.str "1")])
      = true ∧
    run_processing_pipeline_from
      (DF.mk true true [Row.mk (Value.num 1) (Value.str "1")])
      = some (DF.mk true true [Row.mk (Value.num 1) (Value.str "1")]) := by
  constructor
  · decide
  · decide

/-- Claim C5 (amended): a stage failure signalled by `None` (projection
with a missing column) aborts the whole pipeline; but the lowercasing
stage's `AttributeError` failure is only logged: the pipeline continues,
running the punctuation stage on the unchanged table, and completes with a
result. -/
theorem run_processing_pipeline_stage_failures (df : DF)
    (h : (df.hasText && df.hasCat) = true)
    (hraise : lowercaseRaises (DF.mk true true (nonNullCatRows df.rows)) = true) :
    (∀ df' : DF, select_columns df' = none →
      run_processing_pipeline_from df' = none) ∧
    run_processing_pipeline_from df
      = remove_punctuation (DF.mk true true (nonNullCatRows df.rows)) ∧
    ∃ d', run_processing_pipeline_from df = some d' := by
  have hrun : run_processing_pipeline_from df
      = remove_punctuation (DF.mk true true (nonNullCatRows df.rows)) := by
    unfold run_processing_pipeline_from select_columns
    rw [if_pos h]
    unfold remove_unclassified_rows
    rw [Option.some_bind]
    unfold lowercaseRaises at hraise
    have hany : (DF.mk true true (nonNullCatRows df.rows)).rows.any
        (fun r => isStrV r.text) = false := by
      rw [Bool.not_eq_true'] at hraise
      exact hraise
    rw [if_pos rfl, Option.some_bind]
    unfold convert_to_lowercase
    rw [if_pos rfl, if_neg (by rw [hany]; exact Bool.false_ne_true),
      Option.some_bind]
  refine ⟨?_, hrun, ?_⟩
  · intro df' hsel
    unfold run_processing_pipeline_from
    rw [hsel, Option.none_bind]
  · rw [hrun]
    unfold remove_punctuation
    rw [if_pos rfl]
    exact ⟨_, rfl⟩

/-- Claim C5 witness: the amended theorem applied to a table whose text
column is entirely numeric. -/
theorem run_processing_pipeline_stage_failures_witness :
    (∀ df' : DF, select_columns df' = none →
      run_processing_pipeline_from df' = none) ∧
    run_processing_pipeline_from
      (DF.mk true true [Row.mk (Value.num 2) (Value.str "0")])
      = remove_punctuation (DF.mk true true (nonNullCatRows
        (DF.mk true true [Row.mk (Value.num 2) (Value.str "0")]).rows)) ∧
    ∃ d', run_processing_pipeline_from
      (DF.mk true true [Row.mk (Value.num 2) (Value.str "0")]) = some d' :=
  run_processing_pipeline_stage_failures _ rfl (by decide)

-- Formatter ------------------------------------------------------------------

/-- Configured number of longest tweets (`config.TOP_N_LONGEST_TWEETS`). -/
def TOP_N_LONGEST_TWEETS : Nat := 3

/-- Configured number of common words (`config.TOP_N_COMMON_WORDS`). -/
def TOP_N_COMMON_WORDS : Nat := 10

/-- The `exploration_results` dict of a `DataExplorer`: each statistic key
is present only once the corresponding method has recorded it. -/
structure Results where
  category_counts : Option (Dict Nat)
  average_length : Option (Dict (Option Rat))
  longest_texts_by_category : Option (Dict (List Value))
  most_common_words : Option (List String)
  uppercase_words_count : Option (Dict Nat)
deriving DecidableEq, Repr

/-- The freshly initialised `exploration_results = {}`. -/
def emptyResults : Results := Results.mk none none none none none

/-- `category_map.get(str(k), k)`: the fixed lookup of the formatter, keys
absent from it passing through unchanged. -/
def categoryMapGet (k : String) : String :=
  if k = "0" then "non_antisemitic"
  else if k = "1" then "antisemitic"
  else if k = "unclassified" then "unspecified"
  else if k = "total" then "total"
  else k

/-- The dict comprehension
`{category_map.get(str(k), k): v for k, v in d.items()}`. -/
def mapKeysD {V : Type} (d : Dict V) : Dict V :=
  d.foldl (fun acc p => insertD acc (categoryMapGet p.1) p.2) []

/-- The report produced by `AntisemitismReportFormatter.format`: a dict
with five fixed statistic keys. -/
structure Formatted where
  total_tweets : Dict Nat
  average_length : Dict (Option Rat)
  longest_3_tweets : Dict (List Value)
  common_words : Dict (List String)
  uppercase_words : Dict Nat
deriving DecidableEq, Repr

/-- `AntisemitismReportFormatter.format`: rename the category keys of each
raw statistic through the fixed lookup, wrap the common-words list under a
single `total` key, and default each missing statistic to an empty
mapping/list. -/
def format_report (r : Results) : Formatted :=
  Formatted.mk
    (mapKeysD (r.category_counts.getD []))
    (mapKeysD (r.average_length.getD []))
    (mapKeysD (r.longest_texts_by_category.getD []))
    [("total", r.most_common_words.getD [])]
    (mapKeysD (r.uppercase_words_count.getD []))

theorem mapKeysD_of_nodup {V : Type} (d : Dict V)
    (hnd : (d.map (fun p => categoryMapGet p.1)).Nodup) :
    mapKeysD d = d.map (fun p => (categoryMapGet p.1, p.2)) := by
  unfold mapKeysD
  have hfm := List.foldl_map (fun p : String × V => (categoryMapGet p.1, p.2))
    (fun (acc : Dict V) (p : String × V) => insertD acc p.1 p.2) d []
  rw [← hfm]
  apply foldl_insertD_fresh
  · simpa [List.map_map, Function.comp_def] using hnd
  · intro k _
    rfl

/-- Claim C6: the formatter renames category keys through the fixed lookup
(`"1"` becomes `"antisemitic"`, keys outside the lookup pass through
unchanged), wraps the common-words list under a single `total` key, and
defaults a missing statistic to the empty mapping or list. -/
theorem format_report_props :
    categoryMapGet "0" = "non_antisemitic" ∧
    categoryMapGet "1" = "antisemitic" ∧
    categoryMapGet "unclassified" = "unspecified" ∧
    categoryMapGet "total" = "total" ∧
    (∀ k : String, k ≠ "0" → k ≠ "1" → k ≠ "unclassified" → k ≠ "total" →
      categoryMapGet k = k) ∧
    (∀ r : Results, (format_report r).common_words
        = [("total", r.most_common_words.getD [])]) ∧
    (∀ r : Results, r.category_counts = none →
      (format_report r).total_tweets = []) ∧
    (∀ r : Results, r.most_common_words = none →
      (format_report r).common_words = [("total", [])]) ∧
    (∀ r : Results, (format_report r).total_tweets
        = mapKeysD (r.category_counts.getD []) ∧
      (format_report r).average_length = mapKeysD (r.average_length.getD []) ∧
      (format_report r).uppercase_words
        = mapKeysD (r.uppercase_words_count.getD [])) ∧
    ∀ (d : Dict Nat), (d.map (fun p => categoryMapGet p.1)).Nodup →
      mapKeysD d = d.map (fun p => (categoryMapGet p.1, p.2)) := by
  refine ⟨rfl, rfl, rfl, rfl, ?_, fun r => rfl, ?_, ?_, fun r => ⟨rfl, rfl, rfl⟩, ?_⟩
  · intro k h0 h1 h2 h3
    unfold categoryMapGet
    rw [if_neg h0, if_neg h1, if_neg h2, if_neg h3]
  · intro r hr
    unfold format_report
    rw [hr]
    rfl
  · intro r hr
    unfold format_report
    rw [hr]
    rfl
  · intro d hnd
    exact mapKeysD_of_nodup d hnd

/-- Claim C6 witness: concrete instances of the formatter facts — an
unknown key passes through, a raw bundle with `"1"` and `"0"` keys is
renamed entry-wise, and a bundle missing its common-words list yields the
empty wrapped list. -/
theorem format_report_props_witness :
    categoryMapGet "xyz" = "xyz" ∧
    (format_report (Results.mk (some [("1", 2), ("0", 1)]) none none none none)).total_tweets
      = mapKeysD [("1", 2), ("0", 1)] ∧
    mapKeysD [("1", 2), ("0", 1)]
      = [("1", 2), ("0", 1)].map (fun p => (categoryMapGet p.1, p.2)) ∧
    (format_report (Results.mk (some [("1", 2), ("0", 1)]) none none none none)).common_words
      = [("total", [])] :=
  ⟨format_report_props.2.2.2.2.1 "xyz" (by decide) (by decide) (by decide) (by decide),
   (format_report_props.2.2.2.2.2.2.2.2.1
     (Results.mk (some [("1", 2), ("0", 1)]) none none none none)).1,
   format_report_props.2.2.2.2.2.2.2.2.2 [("1", 2), ("0", 1)] (by decide),
   format_report_props.2.2.2.2.2.2.2.1
     (Results.mk (some [("1", 2), ("0", 1)]) none none none none) rfl⟩

-- DataExplorer state and run_full_exploration --------------------------------

/-- A `DataExplorer` instance: the wrapped frame and the accumulated
`exploration_results`. -/
structure Explorer where
  df : DF
  results : Results
deriving DecidableEq, Repr

/-- `get_count_by_category` as a method: records its dict on success,
returns the empty dict without recording when the column is missing. -/
def get_count_by_category_M (e : Explorer) : Dict Nat × Explorer :=
  if e.df.hasCat then
    (get_count_by_category e.df,
     Explorer.mk e.df
       { e.results with category_counts := some (get_count_by_category e.df) })
  else ([], e)

/-- `calculate_average_word_count` as a method. -/
def calculate_average_word_count_M (e : Explorer) :
    Dict (Option Rat) × Explorer :=
  if e.df.hasText && e.df.hasCat then
    (calculate_average_word_count e.df,
     Explorer.mk e.df
       { e.results with average_length := some (calculate_average_word_count e.df) })
  else ([], e)

/-- `get_n_longest_texts_by_category` as a method, relational in the
arrangement the unstable sort produces. -/
def get_n_longest_M (e : Explorer) (n : Nat)
    (out : Dict (List Value) × Explorer) : Prop :=
  if (e.df.hasText && e.df.hasCat) = true then
    ∃ sorted, sortContract e.df.rows sorted ∧
      out = (get_n_longest_given sorted n,
        Explorer.mk e.df
          { e.results with
            longest_texts_by_category := some (get_n_longest_given sorted n) })
  else out = ([], e)

/-- `get_most_common_words` as a method: `none` models the uncaught
`TypeError` of the join; an empty token list (or a missing column) returns
`[]` without recording anything. -/
def get_most_common_words_M (e : Explorer) (n : Nat) :
    Option (List String × Explorer) :=
  if e.df.hasText then
    if (mcwCells e.df).all (fun c => c.isSome) then
      if (mcwTokens e.df).isEmpty then some ([], e)
      else
        some (((word_counts (mcwTokens e.df)).take n).map (fun p => p.1),
          Explorer.mk e.df
            { e.results with
              most_common_words :=
                some (((word_counts (mcwTokens e.df)).take n).map (fun p => p.1)) })
    else none
  else some ([], e)

/-- `count_uppercase_words_by_category` as a method. -/
def count_uppercase_M (e : Explorer) : Dict Nat × Explorer :=
  if e.df.hasText && e.df.hasCat then
    (count_uppercase_words_by_category e.df,
     Explorer.mk e.df
       { e.results with
         uppercase_words_count := some (count_uppercase_words_by_category e.df) })
  else ([], e)

/-- `DataExplorer.run_full_exploration`: the five statistics in order;
`none` models the run dying of the join's `TypeError`; relational because
of the unstable sort inside the longest-texts statistic. -/
def run_full_exploration (e : Explorer) (out : Option Explorer) : Prop :=
  ∃ p3 : Dict (List Value) × Explorer,
    get_n_longest_M
      (calculate_average_word_count_M (get_count_by_category_M e).2).2
      TOP_N_LONGEST_TWEETS p3 ∧
    ((get_most_common_words_M p3.2 TOP_N_COMMON_WORDS = none ∧ out = none) ∨
     (∃ q, get_most_common_words_M p3.2 TOP_N_COMMON_WORDS = some q ∧
        out = some (count_uppercase_M q.2).2))

/-- Claim C9: every statistic method leaves the explorer's frame `df`
unchanged — an `Explorer` has only the frame and the results, so only
`exploration_results` is touched. -/
theorem explorer_methods_preserve_df (e : Explorer) :
    (get_count_by_category_M e).2.df = e.df ∧
    (calculate_average_word_count_M e).2.df = e.df ∧
    (∀ n out, get_n_longest_M e n out → out.2.df = e.df) ∧
    (∀ n l e', get_most_common_words_M e n = some (l, e') → e'.df = e.df) ∧
    (count_uppercase_M e).2.df = e.df := by
  refine ⟨?_, ?_, ?_, ?_, ?_⟩
  · unfold get_count_by_category_M
    by_cases h : e.df.hasCat = true
    · rw [if_pos h]
    · rw [if_neg h]
  · unfold calculate_average_word_count_M
    by_cases h : (e.df.hasText && e.df.hasCat) = true
    · rw [if_pos h]
    · rw [if_neg h]
  · intro n out hrel
    unfold get_n_longest_M at hrel
    by_cases h : (e.df.hasText && e.df.hasCat) = true
    · rw [if_pos h] at hrel
      obtain ⟨sorted, _, rfl⟩ := hrel
      rfl
    · rw [if_neg h] at hrel
      rw [hrel]
  · intro n l e' hout
    unfold get_most_common_words_M at hout
    by_cases hT : e.df.hasText = true
    · rw [if_pos hT] at hout
      by_cases hall : (mcwCells e.df).all (fun c => c.isSome) = true
      · rw [if_pos hall] at hout
        by_cases hemp : (mcwTokens e.df).isEmpty = true
        · rw [if_pos hemp] at hout
          cases hout
          rfl
        · rw [if_neg hemp] at hout
          cases hout
          rfl
      · rw [if_neg hall] at hout
        exact absurd hout (by simp)
    · rw [if_neg hT] at hout
      cases hout
      rfl
  · unfold count_uppercase_M
    by_cases h : (e.df.hasText && e.df.hasCat) = true
    · rw [if_pos h]
    · rw [if_neg h]

/-- A concrete explorer over a one-row table, for instantiating the frame
preservation theorem. -/
def c9Explorer : Explorer :=
  Explorer.mk (DF.mk true true [Row.mk (Value.str "Hi") (Value.str "1")])
    emptyResults

/-- The longest-texts dict of `c9Explorer` under the identity arrangement. -/
def c9Longest : Dict (List Value) :=
  get_n_longest_given [Row.mk (Value.str "Hi") (Value.str "1")] 1

/-- The explorer state after the longest-texts statistic on `c9Explorer`. -/
def c9AfterLongest : Explorer :=
  Explorer.mk c9Explorer.df
    { c9Explorer.results with longest_texts_by_category := some c9Longest }

/-- The explorer state after the common-words statistic on `c9Explorer`. -/
def c9AfterMcw : Explorer :=
  Explorer.mk c9Explorer.df
    { c9Explorer.results with most_common_words := some ["hi"] }

/-- Claim C9 witness: the preservation theorem applied to `c9Explorer`,
with the relational methods instantiated at concrete outputs. -/
theorem explorer_methods_preserve_df_witness :
    (get_count_by_category_M c9Explorer).2.df = c9Explorer.df ∧
    (calculate_average_word_count_M c9Explorer).2.df = c9Explorer.df ∧
    (c9Longest, c9AfterLongest).2.df = c9Explorer.df ∧
    c9AfterMcw.df = c9Explorer.df ∧
    (count_uppercase_M c9Explorer).2.df = c9Explorer.df := by
  have h := explorer_methods_preserve_df c9Explorer
  refine ⟨h.1, h.2.1, ?_, ?_, h.2.2.2.2⟩
  · apply h.2.2.1 1 (c9Longest, c9AfterLongest)
    show ∃ sorted, sortContract c9Explorer.df.rows sorted ∧
      (c9Longest, c9AfterLongest) = (get_n_longest_given sorted 1,
        Explorer.mk c9Explorer.df
          { c9Explorer.results with
            longest_texts_by_category := some (get_n_longest_given sorted 1) })
    exact ⟨[Row.mk (Value.str "Hi") (Value.str "1")],
      ⟨by decide, by decide⟩, rfl⟩
  · apply h.2.2.2.1 10 ["hi"]
    show get_most_common_words_M c9Explorer 10 = some (["hi"], c9AfterMcw)
    decide

theorem mcwCells_all_some (df : DF)
    (hstr : ∀ r ∈ df.rows, isStrOrNull r.text = true) :
    (mcwCells df).all (fun c => c.isSome) = true := by
  rw [List.all_eq_true]
  intro c hc
  obtain ⟨v, hv, hcv⟩ := List.mem_map.mp hc
  have hv' := List.mem_filter.mp hv
  obtain ⟨r, hr, hrv⟩ := List.mem_map.mp hv'.1
  have hnn : v ≠ Value.null := of_decide_eq_true hv'.2
  have hsv := hstr r hr
  rw [hrv] at hsv
  cases v with
  | str s => rw [← hcv]; rfl
  | num q => simp [isStrOrNull] at hsv
  | null => exact absurd rfl hnn

theorem step12_df_mcw (e : Explorer) :
    (calculate_average_word_count_M (get_count_by_category_M e).2).2.df = e.df ∧
    (calculate_average_word_count_M
      (get_count_by_category_M e).2).2.results.most_common_words
      = e.results.most_common_words := by
  unfold get_count_by_category_M
  by_cases h1 : e.df.hasCat = true
  · rw [if_pos h1]
    unfold calculate_average_word_count_M
    dsimp only
    by_cases h2 : (e.df.hasText && e.df.hasCat) = true
    · rw [if_pos h2]; exact ⟨rfl, rfl⟩
    · rw [if_neg h2]; exact ⟨rfl, rfl⟩
  · rw [if_neg h1]
    unfold calculate_average_word_count_M
    by_cases h2 : (e.df.hasText && e.df.hasCat) = true
    · rw [if_pos h2]; exact ⟨rfl, rfl⟩
    · rw [if_neg h2]; exact ⟨rfl, rfl⟩

theorem get_n_longest_M_df_mcw (e : Explorer) (n : Nat)
    (out : Dict (List Value) × Explorer) (h : get_n_longest_M e n out) :
    out.2.df = e.df ∧
    out.2.results.most_common_words = e.results.most_common_words := by
  unfold get_n_longest_M at h
  by_cases hc : (e.df.hasText && e.df.hasCat) = true
  · rw [if_pos hc] at h
    obtain ⟨s, _, rfl⟩ := h
    exact ⟨rfl, rfl⟩
  · rw [if_neg hc] at h
    rw [h]
    exact ⟨rfl, rfl⟩

theorem count_uppercase_M_mcw (e : Explorer) :
    (count_uppercase_M e).2.results.most_common_words
      = e.results.most_common_words := by
  unfold count_uppercase_M
  by_cases h : (e.df.hasText && e.df.hasCat) = true
  · rw [if_pos h]
  · rw [if_neg h]

/-- Claim C10: starting from a fresh explorer, when the text column is
missing or the cleaned concatenation has no token, `get_most_common_words`
returns `[]` without recording anything, so every bundle produced by
`run_full_exploration` lacks the `most_common_words` key and the formatter
emits `common_words` as the mapping binding `total` to the empty list. -/
theorem run_full_exploration_missing_common_words (e : Explorer)
    (hres : e.results = emptyResults)
    (hcase : e.df.hasText = false ∨
      (e.df.hasText = true ∧ (∀ r ∈ e.df.rows, isStrOrNull r.text = true) ∧
        (mcwTokens e.df).isEmpty = true)) :
    ∀ out, run_full_exploration e out →
      ∃ e', out = some e' ∧ e'.results.most_common_words = none ∧
        (format_report e'.results).common_words = [("total", [])] := by
  intro out hrun
  obtain ⟨p3, hrel3, hbr⟩ := hrun
  have h12 := step12_df_mcw e
  have h3 := get_n_longest_M_df_mcw _ _ _ hrel3
  have hdf3 : p3.2.df = e.df := h3.1.trans h12.1
  have hmcw3 : p3.2.results.most_common_words = none := by
    rw [h3.2, h12.2, hres]
    rfl
  have hmc : get_most_common_words_M p3.2 TOP_N_COMMON_WORDS
      = some ([], p3.2) := by
    unfold get_most_common_words_M
    rw [hdf3]
    rcases hcase with hF | ⟨hT, hstr, hemp⟩
    · rw [if_neg (by rw [hF]; exact Bool.false_ne_true)]
    · rw [if_pos hT, if_pos (mcwCells_all_some e.df hstr), if_pos hemp]
  rcases hbr with ⟨hnone, _⟩ | ⟨q, hq, hout⟩
  · rw [hmc] at hnone
    exact absurd hnone (by simp)
  · rw [hmc] at hq
    have hq' : ([], p3.2) = q := Option.some.inj hq
    subst hq'
    have hm : (count_uppercase_M p3.2).2.results.most_common_words = none := by
      rw [count_uppercase_M_mcw p3.2]
      exact hmcw3
    refine ⟨(count_uppercase_M p3.2).2, hout, hm, ?_⟩
    show (format_report (count_uppercase_M p3.2).2.results).common_words
      = [("total", [])]
    unfold format_report
    rw [hm]
    rfl

/-- The fresh explorer over a one-row table whose only text is pure
punctuation, so the cleaned concatenation has no token. -/
def c10E : Explorer :=
  Explorer.mk (DF.mk true true [Row.mk (Value.str "!!") (Value.str "1")])
    emptyResults

/-- The explorer after the first two statistics of the full run on
`c10E`. -/
def c10E2 : Explorer :=
  (calculate_average_word_count_M (get_count_by_category_M c10E).2).2

/-- The output of the longest-texts step of the full run on `c10E`, under
the identity arrangement. -/
def c10P3 : Dict (List Value) × Explorer :=
  (get_n_longest_given [Row.mk (Value.str "!!") (Value.str "1")] TOP_N_LONGEST_TWEETS,
   Explorer.mk c10E2.df
     { c10E2.results with
       longest_texts_by_category := some (get_n_longest_given [Row.mk (Value.str "!!") (Value.str "1")] TOP_N_LONGEST_TWEETS) })

/-- The final explorer of the full run on `c10E`. -/
def c10Out : Explorer := (count_uppercase_M c10P3.2).2

/-- Claim C10 witness: a concrete full run on `c10E` together with the
theorem applied to it. -/
theorem run_full_exploration_missing_common_words_witness :
    run_full_exploration c10E (some c10Out) ∧
    ∃ e', some c10Out = some e' ∧ e'.results.most_common_words = none ∧
      (format_report e'.results).common_words = [("total", [])] := by
  have hrun : run_full_exploration c10E (some c10Out) := by
    refine ⟨c10P3, ?_, Or.inr ⟨([], c10P3.2), ?_, rfl⟩⟩
    · show ∃ sorted, sortContract c10E2.df.rows sorted ∧
        c10P3 = (get_n_longest_given sorted TOP_N_LONGEST_TWEETS,
          Explorer.mk c10E2.df
            { c10E2.results with
              longest_texts_by_category := some (get_n_longest_given sorted TOP_N_LONGEST_TWEETS) })
      exact ⟨[Row.mk (Value.str "!!") (Value.str "1")],
        ⟨by decide, by decide⟩, rfl⟩
    · rfl
  exact ⟨hrun, run_full_exploration_missing_common_words c10E rfl
    (Or.inr ⟨rfl, by decide, by decide⟩) (some c10Out) hrun⟩
